import Mathlib

/-!
# A shallow embedding of the HTTP reverse proxy (src/proxy.py)

The proxy keeps a pool of backend records (`ReverseProxy.backends`, a list of
dicts with keys `id`, `url`, `healthy`, `connections`) plus a round-robin
cursor (`ReverseProxy.current_backend`).  We embed the pool as `ProxyState`,
the selection routine `select_backend`, the request pipeline `handle_request`
(with the outcome of the single outbound HTTP call supplied as an oracle,
since the network is outside the program), the health-probe loop body
`health_check` (one sweep over the pool, with each probe's outcome supplied
as an oracle), the header rewriting `process_headers`, the aggregate health
endpoint `health_handler`, and the response-body chunking `iter_chunked`.

Python integers are unbounded, so counters are `Int` / `Nat` with no modular
wrap.  Backend dicts are mutated in place through the reference returned by
`select_backend`; we model that aliasing by tracking the *index* of the
selected record in the pool (`select_backend_idx`) and proving it agrees
with the value-level `select_backend`.
-/

/-- One backend record, as built by `ReverseProxy._parse_backends`
(src/proxy.py lines 27-39): `id`, `url`, a `healthy` flag initialised to
`True`, and a `connections` counter initialised to `0`.  The derived
`host`/`port` fields play no role in the claims and are omitted. -/
structure Backend where
  id : String
  url : String
  healthy : Bool
  connections : Int
deriving Repr, DecidableEq

/-- The proxy's mutable state: the backend pool plus the round-robin cursor
`current_backend` (src/proxy.py lines 23-24).  The cursor starts at `0` and
is only ever incremented, hence `Nat`. -/
structure ProxyState where
  backends : List Backend
  current_backend : Nat
deriving Repr, DecidableEq

/-- `ReverseProxy.select_backend` (src/proxy.py lines 116-124):

    available = [b for b in self.backends if b['healthy']]
    if not available:
        return None
    backend = available[self.current_backend % len(available)]
    self.current_backend += 1
    return backend

Returns the selected record (if any) together with the post-call state. -/
def select_backend (s : ProxyState) : Option Backend × ProxyState :=
  let available := s.backends.filter (fun b => b.healthy)
  if available.isEmpty then
    (none, s)
  else
    (available[s.current_backend % available.length]?,
     { s with current_backend := s.current_backend + 1 })

/-- Positions (0-based, counting from `n`) of the healthy records of a pool
segment; `healthy_indices_from bs n` lists `n + i` for each healthy `bs[i]`. -/
def healthy_indices_from : List Backend → Nat → List Nat
  | [], _ => []
  | b :: bs, n =>
      if b.healthy then n :: healthy_indices_from bs (n + 1)
      else healthy_indices_from bs (n + 1)

/-- Positions of the healthy records of the pool, in pool order. -/
def healthy_indices (bs : List Backend) : List Nat :=
  healthy_indices_from bs 0

/-- Index-level version of `select_backend`: same control flow, but the
result names the *position* of the selected record in `s.backends`, modelling
the aliased reference Python hands back.  `select_backend_idx_agrees` proves
it coincides with `select_backend`. -/
def select_backend_idx (s : ProxyState) : Option Nat × ProxyState :=
  let avail := healthy_indices s.backends
  if avail.isEmpty then
    (none, s)
  else
    (avail[s.current_backend % avail.length]?,
     { s with current_backend := s.current_backend + 1 })

-- ### Agreement between the value-level and index-level selectors

theorem healthy_indices_from_shift (bs : List Backend) (n : Nat) :
    healthy_indices_from bs (n + 1)
      = (healthy_indices_from bs n).map (· + 1) := by
  induction bs generalizing n with
  | nil => simp [healthy_indices_from]
  | cons b bs ih =>
      by_cases h : b.healthy <;>
        simp [healthy_indices_from, h, ih]

theorem healthy_indices_length (bs : List Backend) :
    (healthy_indices bs).length = (bs.filter (fun b => b.healthy)).length := by
  unfold healthy_indices
  induction bs with
  | nil => simp [healthy_indices_from]
  | cons b bs ih =>
      by_cases h : b.healthy <;>
        simp [healthy_indices_from, List.filter_cons, h,
          healthy_indices_from_shift, ih]

theorem healthy_indices_getElem (bs : List Backend) (k : Nat) :
    ((healthy_indices bs)[k]?.bind fun i => bs[i]?)
      = (bs.filter (fun b => b.healthy))[k]? := by
  induction bs generalizing k with
  | nil => simp [healthy_indices, healthy_indices_from]
  | cons b bs ih =>
      by_cases h : b.healthy
      · cases k with
        | zero =>
            simp [healthy_indices, healthy_indices_from, h, List.filter_cons]
        | succ k =>
            have := ih k
            simp only [healthy_indices, healthy_indices_from, h, if_pos,
              List.filter_cons, List.getElem?_cons_succ,
              healthy_indices_from_shift, List.getElem?_map] at *
            cases hk : (healthy_indices_from bs 0)[k]? with
            | none => simp [hk] at this ⊢; omega
            | some i =>
                simp [hk] at this ⊢
                simpa using this
      · have := ih k
        simp only [healthy_indices, healthy_indices_from, h,
          List.filter_cons, healthy_indices_from_shift,
          List.getElem?_map, Bool.false_eq_true, if_false] at *
        cases hk : (healthy_indices_from bs 0)[k]? with
        | none => simp [hk] at this ⊢; omega
        | some i =>
            simp [hk] at this ⊢
            simpa using this

theorem isEmpty_congr_of_length {α β : Type} (l1 : List α) (l2 : List β)
    (h : l1.length = l2.length) : l1.isEmpty = l2.isEmpty := by
  cases l1 <;> cases l2 <;> simp_all

theorem healthy_indices_isEmpty (bs : List Backend) :
    (healthy_indices bs).isEmpty
      = (bs.filter (fun b => b.healthy)).isEmpty :=
  isEmpty_congr_of_length _ _ (healthy_indices_length bs)

theorem select_backend_idx_agrees (s : ProxyState) :
    (select_backend_idx s).2 = (select_backend s).2
    ∧ ((select_backend_idx s).1.bind fun i => s.backends[i]?)
        = (select_backend s).1 := by
  unfold select_backend select_backend_idx
  dsimp only
  rw [healthy_indices_isEmpty]
  by_cases h : (s.backends.filter (fun b => b.healthy)).isEmpty
  · simp [h]
  · simp only [h, Bool.false_eq_true, if_false]
    refine ⟨trivial, ?_⟩
    rw [healthy_indices_length]
    exact healthy_indices_getElem s.backends _

/-- A backend HTTP response as seen by the forwarder: its status code, the
`Content-Length` the backend declared, and its body bytes (bytes as `Nat`). -/
structure Response where
  status : Nat
  content_length : Nat
  body : List Nat
deriving Repr, DecidableEq

/-- `response.content.iter_chunked(8192)` (src/proxy.py line 80): split the
body into consecutive chunks of at most `n` bytes (`n = 8192` at the call
site); the chunks are streamed to the caller in order. -/
def iter_chunked (n : Nat) (body : List Nat) : List (List Nat) :=
  match body with
  | [] => []
  | x :: xs => (x :: xs.take (n - 1)) :: iter_chunked n (xs.drop (n - 1))
termination_by body.length
decreasing_by simp; omega

/-- The bytes the caller receives: every chunk written by the streaming loop
(src/proxy.py lines 80-81), concatenated in order. -/
def forwarded_body (resp : Response) : List Nat :=
  (iter_chunked 8192 resp.body).flatten

/-- Outcome of the single outbound HTTP call of one forwarding attempt,
supplied as an oracle (the network is outside the program):
`success resp` — the `async with self.session.request(...)` block runs to
completion; `timeout` — it raises `asyncio.TimeoutError`; `error` — it
raises any other exception. -/
inductive Outcome
  | success (resp : Response)
  | timeout
  | error
deriving Repr, DecidableEq

/-- What `ReverseProxy.handle_request` produces, seen from outside: the HTTP
status returned to the caller, the streamed body (when a backend response
was streamed), whether an outbound call was issued at all, the pool state
`during` the outbound call (after the `connections` increment of line 61;
`none` when no call was made), and the final pool state. -/
structure ForwardResult where
  status : Nat
  body : Option (List Nat)
  outbound_call : Bool
  during : Option ProxyState
  state : ProxyState
deriving Repr, DecidableEq

/-- `backend['healthy'] = False` on the record at position `i`. -/
def mark_unhealthy_at (s : ProxyState) (i : Nat) : ProxyState :=
  { s with backends := s.backends.modify (fun b => { b with healthy := false }) i }

/-- `backend['connections'] += d` on the record at position `i`. -/
def add_connections_at (s : ProxyState) (i : Nat) (d : Int) : ProxyState :=
  { s with backends := s.backends.modify (fun b => { b with connections := b.connections + d }) i }

/-- `ReverseProxy.handle_request` (src/proxy.py lines 48-98).  Control flow
of the source: `select_backend()`; on `None` return a 503 response without
touching the session; otherwise `backend['connections'] += 1` (line 61),
issue the outbound call, and
  - on success stream the response body back in 8192-byte chunks and return
    it with the backend's status (lines 74-85);
  - on `asyncio.TimeoutError` set `backend['healthy'] = False` and return
    504 (lines 87-90);
  - on any other exception set `backend['healthy'] = False` and return 502
    (lines 92-95);
and in all three cases run the `finally` block `backend['connections'] -= 1`
(lines 97-98).  The selected record is mutated through the alias returned by
`select_backend`, modelled here by its pool index. -/
def handle_request (s : ProxyState) (oc : Outcome) : ForwardResult :=
  match select_backend_idx s with
  | (none, s1) =>
      { status := 503, body := none, outbound_call := false,
        during := none, state := s1 }
  | (some i, s1) =>
      let s2 := add_connections_at s1 i 1
      match oc with
      | .success resp =>
          { status := resp.status, body := some (forwarded_body resp),
            outbound_call := true, during := some s2,
            state := add_connections_at s2 i (-1) }
      | .timeout =>
          { status := 504, body := none, outbound_call := true,
            during := some s2,
            state := add_connections_at (mark_unhealthy_at s2 i) i (-1) }
      | .error =>
          { status := 502, body := none, outbound_call := true,
            during := some s2,
            state := add_connections_at (mark_unhealthy_at s2 i) i (-1) }

/-- A sequence of forwarding attempts: fold `handle_request` over a list of
outbound-call outcomes. -/
def run_requests (s : ProxyState) : List Outcome → ProxyState
  | [] => s
  | oc :: rest => run_requests (handle_request s oc).state rest

/-- Outcome of one health probe (`GET {url}/health`, src/proxy.py lines
131-134), supplied as an oracle: a response with some status code, a probe
timeout, or any other connection failure. -/
inductive ProbeOutcome
  | status (code : Nat)
  | timeout
  | error
deriving Repr, DecidableEq

/-- Whether the probe counts as a success: `response.status == 200`
(src/proxy.py line 135); a timeout or connection failure lands in the
`except` branch (lines 140-142) and counts as failure. -/
def probe_ok : ProbeOutcome → Bool
  | .status code => code == 200
  | .timeout => false
  | .error => false

/-- The `for backend in self.backends:` loop body of one sweep of
`ReverseProxy.health_check` (src/proxy.py lines 129-142): the record at
overall position `i` gets `healthy = (probe i succeeded)`.  `probe` is the
oracle giving each backend's probe outcome. -/
def health_check_from (probe : Nat → ProbeOutcome) : List Backend → Nat → List Backend
  | [], _ => []
  | b :: bs, i =>
      { b with healthy := probe_ok (probe i) } :: health_check_from probe bs (i + 1)

/-- One sweep of the `health_check` loop over the whole pool. -/
def health_check (s : ProxyState) (probe : Nat → ProbeOutcome) : ProxyState :=
  { s with backends := health_check_from probe s.backends 0 }

/-- The aggregate health view: HTTP status, body `status` string, and the
per-backend report. -/
structure HealthView where
  http_status : Nat
  status : String
  backends : List (String × Bool × Int)
deriving Repr, DecidableEq

/-- `health_handler` (src/proxy.py lines 177-185):

    healthy = any(b['healthy'] for b in proxy.backends)
    return web.json_response({'status': 'healthy' if healthy else 'unhealthy',
                              'backends': [{'id': ..., 'healthy': ..., 'connections': ...} ...]},
                             status=200 if healthy else 503) -/
def health_handler (s : ProxyState) : HealthView :=
  let healthy := s.backends.any (fun b => b.healthy)
  { http_status := if healthy then 200 else 503,
    status := if healthy then "healthy" else "unhealthy",
    backends := s.backends.map (fun b => (b.id, b.healthy, b.connections)) }

/-- Python `dict` assignment `headers[k] = v`: replace the value of the
(unique) entry whose key equals `k` exactly, else append a new entry. -/
def set_header (hs : List (String × String)) (k v : String) : List (String × String) :=
  if hs.any (fun p => p.1 == k) then hs.map (fun p => if p.1 == k then (k, v) else p)
  else hs ++ [(k, v)]

/-- `ReverseProxy.process_headers` (src/proxy.py lines 100-114).

`headers = dict(request.headers)` turns the case-insensitive header
multidict into a plain case-sensitive `dict`; multidict iteration yields the
header names in the case the client sent them (aiohttp's parser does not
normalise them), so `inbound` here is that items list, names verbatim from
the wire.  Each `headers.pop(h, None)` with the lowercase names
`'connection'`, `'keep-alive'`, `'transfer-encoding'`, `'upgrade'` is an
exact, case-sensitive `dict` removal.  Then `X-Forwarded-For`,
`X-Forwarded-Proto` and `X-Real-IP` are assigned, with
`client_ip = request.remote or '127.0.0.1'`. -/
def process_headers (inbound : List (String × String)) (remote : Option String)
    (scheme : String) : List (String × String) :=
  let headers := inbound
  let headers := ["connection", "keep-alive", "transfer-encoding", "upgrade"].foldl
      (fun hs h => hs.filter (fun p => !(p.1 == h))) headers
  let client_ip := remote.getD "127.0.0.1"
  let headers := set_header headers "X-Forwarded-For" client_ip
  let headers := set_header headers "X-Forwarded-Proto" scheme
  set_header headers "X-Real-IP" client_ip

/-- `n` consecutive calls to `select_backend`, collecting each call's result
and threading the state. -/
def select_run : Nat → ProxyState → List (Option Backend) × ProxyState
  | 0, s => ([], s)
  | n + 1, s =>
      let step := select_backend s
      let rest := select_run n step.2
      (step.1 :: rest.1, rest.2)

-- ### Basic facts about the selectors

theorem select_backend_of_empty (s : ProxyState)
    (h : s.backends.filter (fun b => b.healthy) = []) :
    select_backend s = (none, s) := by
  unfold select_backend
  simp [h]

theorem select_backend_of_nonempty (s : ProxyState)
    (h : s.backends.filter (fun b => b.healthy) ≠ []) :
    select_backend s =
      ((s.backends.filter (fun b => b.healthy))[s.current_backend %
          (s.backends.filter (fun b => b.healthy)).length]?,
       { s with current_backend := s.current_backend + 1 }) := by
  unfold select_backend
  simp [List.isEmpty_eq_false.mpr h]

theorem select_backend_isSome_of_nonempty (s : ProxyState)
    (h : s.backends.filter (fun b => b.healthy) ≠ []) :
    ∃ b, (select_backend s).1 = some b := by
  rw [select_backend_of_nonempty s h]
  have hl : 0 < (s.backends.filter (fun b => b.healthy)).length :=
    List.length_pos.mpr h
  exact ⟨_, List.getElem?_eq_getElem (Nat.mod_lt _ hl)⟩

theorem select_backend_none_iff (s : ProxyState) :
    (select_backend s).1 = none ↔ s.backends.filter (fun b => b.healthy) = [] := by
  constructor
  · intro h
    by_contra hne
    obtain ⟨b, hb⟩ := select_backend_isSome_of_nonempty s hne
    rw [h] at hb
    cases hb
  · intro h
    rw [select_backend_of_empty s h]

theorem select_backend_some_healthy (s : ProxyState) (b : Backend)
    (h : (select_backend s).1 = some b) : b.healthy = true := by
  by_cases hne : s.backends.filter (fun b => b.healthy) = []
  · rw [select_backend_of_empty s hne] at h
    cases h
  · rw [select_backend_of_nonempty s hne] at h
    exact (List.mem_filter.mp (List.getElem?_mem h)).2

theorem healthy_indices_mem_lt (bs : List Backend) (i : Nat)
    (h : i ∈ healthy_indices bs) : i < bs.length := by
  unfold healthy_indices at h
  induction bs generalizing i with
  | nil => simp [healthy_indices_from] at h
  | cons b bs ih =>
      simp only [healthy_indices_from, healthy_indices_from_shift] at h
      by_cases hb : b.healthy
      · rw [if_pos hb] at h
        rcases List.mem_cons.mp h with h0 | h1
        · simp [h0]
        · obtain ⟨j, hj, rfl⟩ := List.mem_map.mp h1
          have := ih j hj
          simp only [List.length_cons]
          omega
      · rw [if_neg hb] at h
        obtain ⟨j, hj, rfl⟩ := List.mem_map.mp h
        have := ih j hj
        simp only [List.length_cons]
        omega

theorem select_backend_idx_eq_of_some (s : ProxyState) (i : Nat)
    (h : (select_backend_idx s).1 = some i) :
    select_backend_idx s =
      (some i, { s with current_backend := s.current_backend + 1 }) := by
  unfold select_backend_idx at h ⊢
  dsimp only at h ⊢
  by_cases he : (healthy_indices s.backends).isEmpty
  · rw [if_pos he] at h
    cases h
  · rw [if_neg he] at h ⊢
    dsimp only at h
    rw [h]

theorem select_backend_idx_some_lt (s : ProxyState) (i : Nat)
    (h : (select_backend_idx s).1 = some i) : i < s.backends.length := by
  unfold select_backend_idx at h
  dsimp only at h
  by_cases he : (healthy_indices s.backends).isEmpty
  · rw [if_pos he] at h
    cases h
  · rw [if_neg he] at h
    exact healthy_indices_mem_lt s.backends i (List.getElem?_mem h)

theorem select_backend_idx_some_backend (s : ProxyState) (i : Nat)
    (h : (select_backend_idx s).1 = some i) :
    ∃ b, s.backends[i]? = some b ∧ b.healthy = true
      ∧ (select_backend s).1 = some b := by
  have hag := (select_backend_idx_agrees s).2
  rw [h] at hag
  simp only [Option.bind_some, Option.some_bind] at hag
  obtain ⟨b, hb⟩ : ∃ b, s.backends[i]? = some b :=
    ⟨_, List.getElem?_eq_getElem (select_backend_idx_some_lt s i h)⟩
  refine ⟨b, hb, ?_, ?_⟩
  · exact select_backend_some_healthy s b (by rw [← hag, hb])
  · rw [← hag, hb]

theorem select_backend_idx_none_state (s : ProxyState)
    (h : (select_backend_idx s).1 = none) : select_backend_idx s = (none, s) := by
  unfold select_backend_idx at h ⊢
  dsimp only at h ⊢
  by_cases he : (healthy_indices s.backends).isEmpty
  · rw [if_pos he]
  · exfalso
    rw [if_neg he] at h
    have hne : healthy_indices s.backends ≠ [] := by
      simpa using List.isEmpty_eq_false.mp (Bool.eq_false_iff.mpr he)
    have hl : 0 < (healthy_indices s.backends).length := List.length_pos.mpr hne
    rw [List.getElem?_eq_getElem (Nat.mod_lt _ hl)] at h
    cases h

theorem select_backend_idx_none_iff (s : ProxyState) :
    (select_backend_idx s).1 = none ↔ (select_backend s).1 = none := by
  constructor
  · intro h
    have hag := (select_backend_idx_agrees s).2
    rw [h] at hag
    simpa using hag.symm
  · intro h
    cases hi : (select_backend_idx s).1 with
    | none => rfl
    | some i =>
        obtain ⟨b, _, _, hb⟩ := select_backend_idx_some_backend s i hi
        rw [h] at hb
        cases hb

-- ### Reductions of `handle_request` and pointwise effects of the mutations

theorem handle_request_of_none (s : ProxyState) (oc : Outcome)
    (h : (select_backend_idx s).1 = none) :
    handle_request s oc =
      { status := 503, body := none, outbound_call := false,
        during := none, state := s } := by
  unfold handle_request
  rw [select_backend_idx_none_state s h]

theorem handle_request_success_eq (s : ProxyState) (resp : Response) (i : Nat)
    (h : (select_backend_idx s).1 = some i) :
    handle_request s (Outcome.success resp) =
      { status := resp.status, body := some (forwarded_body resp),
        outbound_call := true,
        during := some (add_connections_at
          { s with current_backend := s.current_backend + 1 } i 1),
        state := add_connections_at (add_connections_at
          { s with current_backend := s.current_backend + 1 } i 1) i (-1) } := by
  unfold handle_request
  rw [select_backend_idx_eq_of_some s i h]

theorem handle_request_timeout_eq (s : ProxyState) (i : Nat)
    (h : (select_backend_idx s).1 = some i) :
    handle_request s Outcome.timeout =
      { status := 504, body := none, outbound_call := true,
        during := some (add_connections_at
          { s with current_backend := s.current_backend + 1 } i 1),
        state := add_connections_at (mark_unhealthy_at (add_connections_at
          { s with current_backend := s.current_backend + 1 } i 1) i) i (-1) } := by
  unfold handle_request
  rw [select_backend_idx_eq_of_some s i h]

theorem handle_request_error_eq (s : ProxyState) (i : Nat)
    (h : (select_backend_idx s).1 = some i) :
    handle_request s Outcome.error =
      { status := 502, body := none, outbound_call := true,
        during := some (add_connections_at
          { s with current_backend := s.current_backend + 1 } i 1),
        state := add_connections_at (mark_unhealthy_at (add_connections_at
          { s with current_backend := s.current_backend + 1 } i 1) i) i (-1) } := by
  unfold handle_request
  rw [select_backend_idx_eq_of_some s i h]

theorem add_connections_at_getElem (s : ProxyState) (i : Nat) (d : Int) (j : Nat) :
    (add_connections_at s i d).backends[j]?
      = (fun b => if i = j then { b with connections := b.connections + d } else b)
          <$> s.backends[j]? := by
  unfold add_connections_at
  exact List.getElem?_modify _ i s.backends j

theorem mark_unhealthy_at_getElem (s : ProxyState) (i : Nat) (j : Nat) :
    (mark_unhealthy_at s i).backends[j]?
      = (fun b => if i = j then { b with healthy := false } else b)
          <$> s.backends[j]? := by
  unfold mark_unhealthy_at
  exact List.getElem?_modify _ i s.backends j

theorem add_connections_at_healthy (s : ProxyState) (i : Nat) (d : Int) (j : Nat) :
    ((add_connections_at s i d).backends[j]?.map (fun b => b.healthy))
      = (s.backends[j]?.map (fun b => b.healthy)) := by
  rw [add_connections_at_getElem]
  cases s.backends[j]? with
  | none => rfl
  | some b =>
      by_cases hij : i = j <;> simp [hij]

theorem mark_unhealthy_at_connections (s : ProxyState) (i : Nat) (j : Nat) :
    ((mark_unhealthy_at s i).backends[j]?.map (fun b => b.connections))
      = (s.backends[j]?.map (fun b => b.connections)) := by
  rw [mark_unhealthy_at_getElem]
  cases s.backends[j]? with
  | none => rfl
  | some b =>
      by_cases hij : i = j <;> simp [hij]

-- ### Health-probe sweep, pointwise

theorem health_check_from_length (probe : Nat → ProbeOutcome) (bs : List Backend)
    (n : Nat) : (health_check_from probe bs n).length = bs.length := by
  induction bs generalizing n with
  | nil => rfl
  | cons b bs ih => simp [health_check_from, ih]

theorem health_check_from_getElem (probe : Nat → ProbeOutcome) (bs : List Backend)
    (n j : Nat) :
    (health_check_from probe bs n)[j]?
      = (fun b => { b with healthy := probe_ok (probe (n + j)) }) <$> bs[j]? := by
  induction bs generalizing n j with
  | nil => simp [health_check_from]
  | cons b bs ih =>
      cases j with
      | zero => simp [health_check_from]
      | succ j =>
          simp only [health_check_from, List.getElem?_cons_succ, ih,
            Nat.add_succ, Nat.succ_add]

-- ### Claim theorems (first batch)

/-- **C10** — frame of `select_backend`: when it returns `none` the cursor
(and the whole state) is unchanged; the cursor advances by exactly one on a
returning selection; and in every case no backend record is mutated (the
pool list is returned intact, so every `healthy` flag, `connections`
counter, `id` and `url` is untouched). -/
theorem select_backend_frame (s : ProxyState) :
    ((select_backend s).2.backends = s.backends)
    ∧ ((select_backend s).1 = none → (select_backend s).2 = s)
    ∧ (∀ b, (select_backend s).1 = some b →
        (select_backend s).2.current_backend = s.current_backend + 1) := by
  by_cases h : s.backends.filter (fun b => b.healthy) = []
  · rw [select_backend_of_empty s h]
    exact ⟨rfl, fun _ => rfl, fun b hb => by cases hb⟩
  · rw [select_backend_of_nonempty s h]
    refine ⟨rfl, ?_, fun b _ => rfl⟩
    intro hn
    obtain ⟨b, hb⟩ := select_backend_isSome_of_nonempty s h
    rw [select_backend_of_nonempty s h] at hb
    dsimp only at hb hn
    rw [hb] at hn
    cases hn

/-- **C3** — selection only ever returns a healthy backend; when every
backend is unhealthy it returns `none`; and in the `none` case the forwarder
answers 503 without issuing an outbound call and without touching the
state. -/
theorem select_healthy_invariant (s : ProxyState) :
    (∀ b, (select_backend s).1 = some b → b.healthy = true)
    ∧ ((∀ b ∈ s.backends, b.healthy = false) → (select_backend s).1 = none)
    ∧ (∀ oc, (select_backend s).1 = none →
        (handle_request s oc).status = 503
        ∧ (handle_request s oc).outbound_call = false
        ∧ (handle_request s oc).state = s) := by
  refine ⟨fun b hb => select_backend_some_healthy s b hb, ?_, ?_⟩
  · intro hall
    rw [select_backend_none_iff]
    rw [List.filter_eq_nil_iff]
    intro b hb
    simp [hall b hb]
  · intro oc hnone
    have hidx : (select_backend_idx s).1 = none :=
      (select_backend_idx_none_iff s).mpr hnone
    rw [handle_request_of_none s oc hidx]
    exact ⟨rfl, rfl, rfl⟩

/-- **C6** — one probe sweep sets each backend's `healthy` flag to the truth
value of "the probe response status is exactly 200" (timeouts and connection
failures count as failure); every configured backend (healthy or not) is
visited, none is added or removed, and `id`, `url`, `connections` are left
as they were. -/
theorem probe_semantics (s : ProxyState) (probe : Nat → ProbeOutcome) :
    ((health_check s probe).backends.length = s.backends.length)
    ∧ (∀ (i : Nat) (b : Backend), s.backends[i]? = some b →
        (health_check s probe).backends[i]?
          = some { b with healthy := probe_ok (probe i) })
    ∧ (∀ p, probe_ok p = true ↔ p = ProbeOutcome.status 200) := by
  refine ⟨health_check_from_length probe s.backends 0, ?_, ?_⟩
  · intro i b hb
    unfold health_check
    dsimp only
    rw [health_check_from_getElem, hb]
    simp
  · intro p
    cases p with
    | status code => simp [probe_ok]
    | timeout => simp [probe_ok]
    | error => simp [probe_ok]

/-- **C9** — the aggregate health endpoint reports `"healthy"`/HTTP 200 when
at least one backend is healthy, `"unhealthy"`/HTTP 503 when every backend
is unhealthy, and its body lists `(id, healthy, connections)` for every
configured backend in pool order. -/
theorem health_aggregation (s : ProxyState) :
    ((∃ b ∈ s.backends, b.healthy = true) →
        (health_handler s).status = "healthy"
        ∧ (health_handler s).http_status = 200)
    ∧ ((∀ b ∈ s.backends, b.healthy = false) →
        (health_handler s).status = "unhealthy"
        ∧ (health_handler s).http_status = 503)
    ∧ (health_handler s).backends
        = s.backends.map (fun b => (b.id, b.healthy, b.connections)) := by
  unfold health_handler
  dsimp only
  refine ⟨?_, ?_, rfl⟩
  · intro hex
    have hany : s.backends.any (fun b => b.healthy) = true := by
      rw [List.any_eq_true]
      obtain ⟨b, hb, hh⟩ := hex
      exact ⟨b, hb, hh⟩
    simp [hany]
  · intro hall
    have hany : s.backends.any (fun b => b.healthy) = false := by
      rw [List.any_eq_false]
      intro b hb
      simp [hall b hb]
    simp [hany]

-- ### Effects of a forwarding attempt on flags and counters

theorem state_after_failure_healthy (s : ProxyState) (i : Nat) (b : Backend)
    (hb : s.backends[i]? = some b) :
    ((add_connections_at (mark_unhealthy_at (add_connections_at
        { s with current_backend := s.current_backend + 1 } i 1) i) i (-1)).backends[i]?.map
      (fun b => b.healthy)) = some false := by
  rw [add_connections_at_healthy, mark_unhealthy_at_getElem, add_connections_at_getElem]
  simp [hb]

/-- **C4** — failure classification: when a backend was selected, a timeout
yields 504 and sets that backend's `healthy` flag to false, and any other
outbound error yields 502 and sets the flag to false; when selection
returned `none` no backend record is mutated at all. -/
theorem failure_classification (s : ProxyState) :
    (∀ i, (select_backend_idx s).1 = some i →
        (handle_request s Outcome.timeout).status = 504
        ∧ ((handle_request s Outcome.timeout).state.backends[i]?.map
            (fun b => b.healthy)) = some false
        ∧ (handle_request s Outcome.error).status = 502
        ∧ ((handle_request s Outcome.error).state.backends[i]?.map
            (fun b => b.healthy)) = some false)
    ∧ ((select_backend_idx s).1 = none → ∀ oc,
        (handle_request s oc).state.backends = s.backends) := by
  constructor
  · intro i hi
    obtain ⟨b, hb, _, _⟩ := select_backend_idx_some_backend s i hi
    refine ⟨by rw [handle_request_timeout_eq s i hi], ?_,
      by rw [handle_request_error_eq s i hi], ?_⟩
    · rw [handle_request_timeout_eq s i hi]
      exact state_after_failure_healthy s i b hb
    · rw [handle_request_error_eq s i hi]
      exact state_after_failure_healthy s i b hb
  · intro hn oc
    rw [handle_request_of_none s oc hn]

theorem during_connections (s : ProxyState) (i j : Nat) :
    ((add_connections_at { s with current_backend := s.current_backend + 1 } i 1).backends[j]?.map
        (fun b => b.connections))
      = if i = j
        then (s.backends[j]?.map (fun b => b.connections + 1))
        else (s.backends[j]?.map (fun b => b.connections)) := by
  rw [add_connections_at_getElem]
  by_cases hij : i = j
  · cases s.backends[j]? <;> simp [hij]
  · cases s.backends[j]? <;> simp [hij]

theorem final_connections_preserved (s : ProxyState) (oc : Outcome) (i : Nat)
    (hi : (select_backend_idx s).1 = some i) (j : Nat) :
    ((handle_request s oc).state.backends[j]?.map (fun b => b.connections))
      = (s.backends[j]?.map (fun b => b.connections)) := by
  cases oc with
  | success resp =>
      rw [handle_request_success_eq s resp i hi]
      dsimp only
      simp only [add_connections_at_getElem]
      cases s.backends[j]? with
      | none => rfl
      | some b =>
          by_cases hij : i = j <;> simp [hij]
  | timeout =>
      rw [handle_request_timeout_eq s i hi]
      dsimp only
      simp only [add_connections_at_getElem, mark_unhealthy_at_getElem]
      cases s.backends[j]? with
      | none => rfl
      | some b =>
          by_cases hij : i = j <;> simp [hij]
  | error =>
      rw [handle_request_error_eq s i hi]
      dsimp only
      simp only [add_connections_at_getElem, mark_unhealthy_at_getElem]
      cases s.backends[j]? with
      | none => rfl
      | some b =>
          by_cases hij : i = j <;> simp [hij]

theorem handle_request_during (s : ProxyState) (oc : Outcome) (i : Nat)
    (hi : (select_backend_idx s).1 = some i) :
    (handle_request s oc).during
      = some (add_connections_at
          { s with current_backend := s.current_backend + 1 } i 1) := by
  cases oc with
  | success resp => rw [handle_request_success_eq s resp i hi]
  | timeout => rw [handle_request_timeout_eq s i hi]
  | error => rw [handle_request_error_eq s i hi]

/-- **C7** — the selected backend's `connections` counter is incremented
exactly once before the outbound call (the in-flight pool state carries
`connections + 1` for the selected backend and untouched records for every
other) and decremented exactly once on every exit path, so every backend's
counter is unchanged once the attempt finishes; attempts in which selection
returns `none` make no outbound call and change no counter. -/
theorem connection_counter_net_zero (s : ProxyState) (oc : Outcome) :
    (∀ i, (select_backend_idx s).1 = some i →
        ((handle_request s oc).during
            = some (add_connections_at
                { s with current_backend := s.current_backend + 1 } i 1))
        ∧ (∀ d : ProxyState, (handle_request s oc).during = some d →
            ((d.backends[i]?.map (fun b : Backend => b.connections))
                = (s.backends[i]?.map (fun b : Backend => b.connections + 1)))
            ∧ (∀ j : Nat, j ≠ i → d.backends[j]? = s.backends[j]?))
        ∧ (∀ j : Nat, ((handle_request s oc).state.backends[j]?.map
              (fun b : Backend => b.connections))
            = (s.backends[j]?.map (fun b : Backend => b.connections))))
    ∧ ((select_backend_idx s).1 = none →
        (handle_request s oc).during = none
        ∧ (handle_request s oc).state.backends = s.backends) := by
  constructor
  · intro i hi
    refine ⟨handle_request_during s oc i hi, ?_, final_connections_preserved s oc i hi⟩
    intro d hd
    rw [handle_request_during s oc i hi] at hd
    cases hd
    constructor
    · have := during_connections s i i
      simpa using this
    · intro j hji
      have hji2 : ¬ (i = j) := fun hc => hji hc.symm
      rw [add_connections_at_getElem]
      cases s.backends[j]? <;> simp [hji2]
  · intro hn
    rw [handle_request_of_none s oc hn]
    exact ⟨rfl, rfl⟩

-- ### Forwarding never resurrects a backend

theorem handle_request_healthy_false_mono (s : ProxyState) (oc : Outcome) (j : Nat)
    (h : (s.backends[j]?.map (fun b => b.healthy)) = some false) :
    ((handle_request s oc).state.backends[j]?.map (fun b => b.healthy))
      = some false := by
  cases hi : (select_backend_idx s).1 with
  | none =>
      rw [handle_request_of_none s oc hi]
      exact h
  | some i =>
      cases oc with
      | success resp =>
          rw [handle_request_success_eq s resp i hi]
          dsimp only
          rw [add_connections_at_healthy, add_connections_at_healthy]
          exact h
      | timeout =>
          rw [handle_request_timeout_eq s i hi]
          dsimp only
          rw [add_connections_at_healthy, mark_unhealthy_at_getElem,
            add_connections_at_getElem]
          cases hx : s.backends[j]? with
          | none => rw [hx] at h; cases h
          | some b =>
              rw [hx] at h
              have hbf : b.healthy = false := by simpa using h
              by_cases hij : i = j <;> simp [hij, hbf]
      | error =>
          rw [handle_request_error_eq s i hi]
          dsimp only
          rw [add_connections_at_healthy, mark_unhealthy_at_getElem,
            add_connections_at_getElem]
          cases hx : s.backends[j]? with
          | none => rw [hx] at h; cases h
          | some b =>
              rw [hx] at h
              have hbf : b.healthy = false := by simpa using h
              by_cases hij : i = j <;> simp [hij, hbf]

theorem run_requests_healthy_false (s : ProxyState) (ocs : List Outcome) (j : Nat)
    (h : (s.backends[j]?.map (fun b => b.healthy)) = some false) :
    ((run_requests s ocs).backends[j]?.map (fun b => b.healthy)) = some false := by
  induction ocs generalizing s with
  | nil => exact h
  | cons oc rest ih =>
      exact ih _ (handle_request_healthy_false_mono s oc j h)

/-- **C5** — recovery asymmetry: a backend whose `healthy` flag is false
stays false across any sequence of forwarding attempts, whatever their
outcomes; only a successful health probe (status exactly 200) for that
backend sets the flag back to true. -/
theorem recovery_asymmetry (s : ProxyState) (ocs : List Outcome) (i : Nat)
    (h : (s.backends[i]?.map (fun b => b.healthy)) = some false) :
    ((run_requests s ocs).backends[i]?.map (fun b => b.healthy)) = some false
    ∧ (∀ probe : Nat → ProbeOutcome, probe i = ProbeOutcome.status 200 →
        ((health_check s probe).backends[i]?.map (fun b => b.healthy))
          = some true) := by
  refine ⟨run_requests_healthy_false s ocs i h, ?_⟩
  intro probe hp
  cases hx : s.backends[i]? with
  | none => rw [hx] at h; cases h
  | some b =>
      unfold health_check
      dsimp only
      rw [health_check_from_getElem, hx]
      simp [hp, probe_ok]

-- ### Streaming fidelity

theorem iter_chunked_flatten (n : Nat) (body : List Nat) :
    (iter_chunked n body).flatten = body := by
  induction body using iter_chunked.induct n with
  | case1 => simp [iter_chunked]
  | case2 x xs ih =>
      rw [iter_chunked]
      simp only [List.flatten_cons, List.cons_append, ih]
      rw [List.take_append_drop]

theorem iter_chunked_length_le (n : Nat) (body : List Nat) :
    ∀ c ∈ iter_chunked n body, c.length ≤ 1 + (n - 1) := by
  induction body using iter_chunked.induct n with
  | case1 => simp [iter_chunked]
  | case2 x xs ih =>
      intro c hc
      rw [iter_chunked] at hc
      rcases List.mem_cons.mp hc with rfl | h
      · simp only [List.length_cons]
        have := List.length_take_le (n - 1) xs
        omega
      · exact ih c h

/-- **C8** — streaming fidelity: the bytes forwarded to the caller are
exactly the concatenation, in order, of the chunks produced by
`iter_chunked 8192` on the backend's body, every chunk holds at most 8192
bytes, and the total forwarded byte count equals the backend's declared
content length (for a backend whose declared `Content-Length` matches its
body, as HTTP requires) — no byte is truncated or duplicated; moreover a
successful forwarding attempt hands the caller exactly those bytes. -/
theorem streaming_fidelity (resp : Response)
    (h : resp.content_length = resp.body.length) :
    forwarded_body resp = resp.body
    ∧ (forwarded_body resp).length = resp.content_length
    ∧ (∀ c ∈ iter_chunked 8192 resp.body, c.length ≤ 8192)
    ∧ (∀ (s : ProxyState) (i : Nat), (select_backend_idx s).1 = some i →
        (handle_request s (Outcome.success resp)).body = some resp.body) := by
  have hf : forwarded_body resp = resp.body := iter_chunked_flatten 8192 resp.body
  refine ⟨hf, by rw [hf, h], ?_, ?_⟩
  · intro c hc
    have := iter_chunked_length_le 8192 resp.body c hc
    omega
  · intro s i hi
    rw [handle_request_success_eq s resp i hi]
    dsimp only
    rw [hf]

/-- **C1** — evaluation of `process_headers` at the canonical failing input:
an inbound request whose (case-preserved) header list is
`Connection: keep-alive`, exactly as a standard HTTP client sends it.  The
title-case name survives the lowercase `pop` calls, so the outbound headers
still contain `Connection: keep-alive` — the hop-by-hop removal is *not*
case-insensitive.  (The `X-Forwarded-For` / `X-Forwarded-Proto` /
`X-Real-IP` assignments do behave as specified.) -/
theorem process_headers_titlecase_connection_persists :
    process_headers [("Connection", "keep-alive")] (some "203.0.113.7") "http"
      = [("Connection", "keep-alive"), ("X-Forwarded-For", "203.0.113.7"),
         ("X-Forwarded-Proto", "http"), ("X-Real-IP", "203.0.113.7")]
    ∧ ((process_headers [("Connection", "keep-alive")] (some "203.0.113.7") "http").any
        (fun p => p.1 == "Connection")) = true
    ∧ (process_headers [("connection", "keep-alive")] (some "203.0.113.7") "http"
        = [("X-Forwarded-For", "203.0.113.7"),
           ("X-Forwarded-Proto", "http"), ("X-Real-IP", "203.0.113.7")]) := by
  refine ⟨?_, ?_, ?_⟩ <;> rfl

-- ### Round-robin fairness

theorem select_run_spec (bs : List Backend)
    (h : bs.filter (fun b => b.healthy) ≠ []) (n c : Nat) :
    (select_run n { backends := bs, current_backend := c }).1
      = (List.range n).map (fun k =>
          (bs.filter (fun b => b.healthy))[(c + k) %
            (bs.filter (fun b => b.healthy)).length]?)
    ∧ (select_run n { backends := bs, current_backend := c }).2
        = { backends := bs, current_backend := c + n } := by
  induction n generalizing c with
  | zero => exact ⟨rfl, rfl⟩
  | succ n ih =>
      rw [select_run]
      have hsel :=
        select_backend_of_nonempty { backends := bs, current_backend := c } h
      rw [hsel]
      dsimp only
      obtain ⟨ih1, ih2⟩ := ih (c + 1)
      constructor
      · rw [ih1, List.range_succ_eq_map, List.map_cons, List.map_map]
        refine congrArg₂ List.cons (by simp) ?_
        apply List.map_congr_left
        intro k _
        simp only [Function.comp_apply, Nat.succ_eq_add_one]
        rw [show c + (k + 1) = c + 1 + k by omega]
      · rw [ih2, Nat.add_assoc, Nat.add_comm 1 n]

theorem range_map_mod_eq_rotate (l : List Backend) (c : Nat) (h : l ≠ []) :
    (List.range l.length).map (fun k => l[(c + k) % l.length]?)
      = (l.rotate (c % l.length)).map some := by
  have hlen : 0 < l.length := List.length_pos.mpr h
  apply List.ext_getElem?
  intro m
  by_cases hm : m < l.length
  · rw [List.getElem?_map, List.getElem?_map, List.getElem?_range hm,
      List.getElem?_rotate hm]
    have hmod : (m + c % l.length) % l.length = (c + m) % l.length := by
      have h1 := (Nat.mod_modEq c l.length).add_left m
      rw [Nat.ModEq] at h1
      rw [h1, Nat.add_comm]
    rw [hmod]
    have hlt : (c + m) % l.length < l.length := Nat.mod_lt _ hlen
    rw [List.getElem?_eq_getElem hlt]
    simp
  · have hm2 : l.length ≤ m := Nat.le_of_not_lt hm
    rw [List.getElem?_eq_none, List.getElem?_eq_none]
    · simpa [List.length_rotate] using hm2
    · simpa [List.length_range] using hm2

/-- **C2** — round-robin fairness: with a stable, non-empty healthy subset
of size `N`, the results of `N` consecutive selections are exactly the
healthy sublist rotated to start at position `cursor mod N` (so each healthy
backend is returned exactly once, in the cyclic order the pool fixes), and
after `k` selections the cursor has advanced by exactly `k` — one per
call. -/
theorem round_robin_fairness (s : ProxyState)
    (h : s.backends.filter (fun b => b.healthy) ≠ []) :
    ((select_run (s.backends.filter (fun b => b.healthy)).length s).1
        = ((s.backends.filter (fun b => b.healthy)).rotate
            (s.current_backend %
              (s.backends.filter (fun b => b.healthy)).length)).map some)
    ∧ ((select_run (s.backends.filter (fun b => b.healthy)).length s).1).Perm
        ((s.backends.filter (fun b => b.healthy)).map some)
    ∧ (∀ k, (select_run k s).2
          = { s with current_backend := s.current_backend + k }) := by
  obtain ⟨bs, c⟩ := s
  dsimp only at h ⊢
  have hrot := range_map_mod_eq_rotate (bs.filter (fun b => b.healthy)) c h
  refine ⟨?_, ?_, ?_⟩
  · rw [(select_run_spec bs h _ c).1, hrot]
  · rw [(select_run_spec bs h _ c).1, hrot]
    exact (List.rotate_perm _ _).map some
  · intro k
    exact (select_run_spec bs h k c).2

-- ### Concrete fixtures for the witnesses

/-- A healthy demo backend. -/
def b1 : Backend :=
  { id := "b1", url := "http://localhost:3001", healthy := true, connections := 0 }

/-- A second healthy demo backend. -/
def b2 : Backend :=
  { id := "b2", url := "http://localhost:3002", healthy := true, connections := 0 }

/-- An unhealthy demo backend. -/
def b3 : Backend :=
  { id := "b3", url := "http://localhost:3003", healthy := false, connections := 2 }

/-- A demo backend response whose declared content length matches its body. -/
def respA : Response := { status := 200, content_length := 3, body := [10, 20, 30] }

-- ### Witnesses

/-- Witness for C2 at a pool of three backends (two healthy) and cursor 1. -/
theorem round_robin_fairness_witness :
    (([b1, b2, b3] : List Backend).filter (fun b => b.healthy) ≠ [])
    ∧ ((select_run (([b1, b2, b3] : List Backend).filter
          (fun b => b.healthy)).length ⟨[b1, b2, b3], 1⟩).1
        = ((([b1, b2, b3] : List Backend).filter (fun b => b.healthy)).rotate
            (1 % (([b1, b2, b3] : List Backend).filter
              (fun b => b.healthy)).length)).map some) :=
  ⟨by decide, (round_robin_fairness ⟨[b1, b2, b3], 1⟩ (by decide)).1⟩

/-- Witness for C3 at a pool whose only backend is unhealthy. -/
theorem select_healthy_invariant_witness :
    (∀ b, (select_backend ⟨[b3], 0⟩).1 = some b → b.healthy = true)
    ∧ ((∀ b ∈ ([b3] : List Backend), b.healthy = false) →
        (select_backend ⟨[b3], 0⟩).1 = none)
    ∧ (∀ oc, (select_backend ⟨[b3], 0⟩).1 = none →
        (handle_request ⟨[b3], 0⟩ oc).status = 503
        ∧ (handle_request ⟨[b3], 0⟩ oc).outbound_call = false
        ∧ (handle_request ⟨[b3], 0⟩ oc).state = ⟨[b3], 0⟩) :=
  select_healthy_invariant ⟨[b3], 0⟩

/-- Witness for C4 at a pool with a single healthy backend, index 0. -/
theorem failure_classification_witness :
    (select_backend_idx ⟨[b1], 0⟩).1 = some 0
    ∧ ((handle_request ⟨[b1], 0⟩ Outcome.timeout).status = 504
       ∧ ((handle_request ⟨[b1], 0⟩ Outcome.timeout).state.backends[0]?.map
            (fun b => b.healthy)) = some false
       ∧ (handle_request ⟨[b1], 0⟩ Outcome.error).status = 502
       ∧ ((handle_request ⟨[b1], 0⟩ Outcome.error).state.backends[0]?.map
            (fun b => b.healthy)) = some false) :=
  ⟨by decide, (failure_classification ⟨[b1], 0⟩).1 0 (by decide)⟩

/-- Witness for C5: an unhealthy backend stays unhealthy across a timeout
and an error attempt, and a 200 probe restores it. -/
theorem recovery_asymmetry_witness :
    (((⟨[b3], 0⟩ : ProxyState).backends[0]?.map (fun b => b.healthy)) = some false)
    ∧ (((run_requests ⟨[b3], 0⟩ [Outcome.timeout, Outcome.error]).backends[0]?.map
          (fun b => b.healthy)) = some false
       ∧ (∀ probe : Nat → ProbeOutcome, probe 0 = ProbeOutcome.status 200 →
            ((health_check ⟨[b3], 0⟩ probe).backends[0]?.map
              (fun b => b.healthy)) = some true)) :=
  ⟨by decide,
   recovery_asymmetry ⟨[b3], 0⟩ [Outcome.timeout, Outcome.error] 0 (by decide)⟩

/-- Witness for C6 at a two-backend pool with an all-200 probe. -/
theorem probe_semantics_witness :
    ((health_check ⟨[b1, b3], 0⟩ (fun _ => ProbeOutcome.status 200)).backends.length
        = (⟨[b1, b3], 0⟩ : ProxyState).backends.length)
    ∧ (∀ (i : Nat) (b : Backend),
        (⟨[b1, b3], 0⟩ : ProxyState).backends[i]? = some b →
        (health_check ⟨[b1, b3], 0⟩ (fun _ => ProbeOutcome.status 200)).backends[i]?
          = some { b with healthy := probe_ok ((fun _ => ProbeOutcome.status 200) i) })
    ∧ (∀ p, probe_ok p = true ↔ p = ProbeOutcome.status 200) :=
  probe_semantics ⟨[b1, b3], 0⟩ (fun _ => ProbeOutcome.status 200)

/-- Witness for C7 at a pool with a single healthy backend, index 0, on the
timeout path. -/
theorem connection_counter_net_zero_witness :
    (select_backend_idx ⟨[b1], 0⟩).1 = some 0
    ∧ (((handle_request ⟨[b1], 0⟩ Outcome.timeout).during
          = some (add_connections_at ⟨[b1], 0 + 1⟩ 0 1))
       ∧ (∀ d : ProxyState,
            (handle_request ⟨[b1], 0⟩ Outcome.timeout).during = some d →
            ((d.backends[0]?.map (fun b : Backend => b.connections))
                = ((⟨[b1], 0⟩ : ProxyState).backends[0]?.map
                    (fun b : Backend => b.connections + 1)))
            ∧ (∀ j : Nat, j ≠ 0 →
                d.backends[j]? = (⟨[b1], 0⟩ : ProxyState).backends[j]?))
       ∧ (∀ j : Nat,
            ((handle_request ⟨[b1], 0⟩ Outcome.timeout).state.backends[j]?.map
              (fun b : Backend => b.connections))
            = ((⟨[b1], 0⟩ : ProxyState).backends[j]?.map
                (fun b : Backend => b.connections)))) :=
  ⟨by decide, (connection_counter_net_zero ⟨[b1], 0⟩ Outcome.timeout).1 0 (by decide)⟩

/-- Witness for C8 at a concrete three-byte response. -/
theorem streaming_fidelity_witness :
    (respA.content_length = respA.body.length)
    ∧ (forwarded_body respA = respA.body
       ∧ (forwarded_body respA).length = respA.content_length
       ∧ (∀ c ∈ iter_chunked 8192 respA.body, c.length ≤ 8192)
       ∧ (∀ (s : ProxyState) (i : Nat), (select_backend_idx s).1 = some i →
            (handle_request s (Outcome.success respA)).body = some respA.body)) :=
  ⟨rfl, streaming_fidelity respA rfl⟩

/-- Witness for C9 at a pool with one healthy and one unhealthy backend. -/
theorem health_aggregation_witness :
    ((∃ b ∈ (⟨[b1, b3], 0⟩ : ProxyState).backends, b.healthy = true) →
        (health_handler ⟨[b1, b3], 0⟩).status = "healthy"
        ∧ (health_handler ⟨[b1, b3], 0⟩).http_status = 200)
    ∧ ((∀ b ∈ (⟨[b1, b3], 0⟩ : ProxyState).backends, b.healthy = false) →
        (health_handler ⟨[b1, b3], 0⟩).status = "unhealthy"
        ∧ (health_handler ⟨[b1, b3], 0⟩).http_status = 503)
    ∧ (health_handler ⟨[b1, b3], 0⟩).backends
        = (⟨[b1, b3], 0⟩ : ProxyState).backends.map
            (fun b => (b.id, b.healthy, b.connections)) :=
  health_aggregation ⟨[b1, b3], 0⟩

/-- Witness for C10 at a pool with one healthy backend. -/
theorem select_backend_frame_witness :
    ((select_backend ⟨[b1], 5⟩).2.backends = (⟨[b1], 5⟩ : ProxyState).backends)
    ∧ ((select_backend ⟨[b1], 5⟩).1 = none → (select_backend ⟨[b1], 5⟩).2 = ⟨[b1], 5⟩)
    ∧ (∀ b, (select_backend ⟨[b1], 5⟩).1 = some b →
        (select_backend ⟨[b1], 5⟩).2.current_backend = 5 + 1) :=
  select_backend_frame ⟨[b1], 5⟩
